import Mathlib

/-!
Verification development for the netplan transaction core of
bear-san/haproxy-configurator (`internal/netplan/manager.go` and
`internal/config/netplan.go`).

Modelling conventions:
* Go strings are embedded as `List Char` (`GoStr`); `strings.HasPrefix s pre`
  is `pre.isPrefixOf s`, `strings.Split s sep` (single-char separator) is
  `goSplit sep s`.
* Go maps (`map[string]T`) are embedded as association lists with
  `alGet` / `alSet` / `alDel`; a read of a missing key yields the zero value
  (`.getD {}`), as in Go.  A nil map and an empty map are identified: the only
  place the source distinguishes them is in the wording of two error messages,
  which the claims do not depend on.
* IP addresses are modelled for the IPv4 family: `net.ParseIP` on dotted-quad
  input (Go ≥ 1.17 rules: 1–3 decimal digits per octet, value ≤ 255, no
  leading zeros) and `net.ParseCIDR` / `IPNet.Contains` as masked equality on
  the 32-bit value.
* File I/O is abstracted as explicit state: a transaction journal file is a
  `JFile` (absent / present-but-unloadable / stored contents); the netplan
  document save, the `netplan apply` invocation and the document load are
  oracles carried in `CommitWorld` because the claims quantify over their
  success or failure.  Journal-file writes themselves are assumed to succeed
  (the claims under verification do not quantify over journal write errors).
-/

/-- A Go string, embedded as its list of characters. -/
abbrev GoStr := List Char

/-- Association-list lookup, embedding a read `m[k]` of a Go `map[string]α`
(the `ok` part of the comma-ok form). -/
def alGet {α : Type} : List (GoStr × α) → GoStr → Option α
  | [], _ => none
  | p :: rest, k => if p.1 = k then some p.2 else alGet rest k

/-- Association-list insert/overwrite, embedding `m[k] = v` on a Go map. -/
def alSet {α : Type} : List (GoStr × α) → GoStr → α → List (GoStr × α)
  | [], k, v => [(k, v)]
  | p :: rest, k, v => if p.1 = k then (k, v) :: rest else p :: alSet rest k v

/-- Association-list delete, embedding `delete(m, k)` on a Go map. -/
def alDel {α : Type} (m : List (GoStr × α)) (k : GoStr) : List (GoStr × α) :=
  m.filter (fun p => p.1 != k)

/-- `strings.Split s (String.singleton sep)`: Go's split on a one-character
separator.  `goSplit sep "" = [""]`, matching Go. -/
def goSplit (sep : Char) : GoStr → List GoStr
  | [] => [[]]
  | c :: cs =>
    if c = sep then [] :: goSplit sep cs
    else
      match goSplit sep cs with
      | [] => [[c]]
      | r :: rs => (c :: r) :: rs

/-- Split at the first occurrence of `sep` (Go `IndexByte` + slicing), used by
`net.ParseCIDR` to separate the address from the mask length. -/
def splitFirst (sep : Char) : GoStr → Option (GoStr × GoStr)
  | [] => none
  | c :: cs =>
    if c = sep then some ([], cs)
    else (splitFirst sep cs).map (fun p => (c :: p.1, p.2))

/-- Value of a decimal digit character. -/
def digitVal (c : Char) : Option Nat :=
  if '0' ≤ c ∧ c ≤ '9' then some (c.toNat - '0'.toNat) else none

/-- Decimal parse of a digit string (Go's `dtoi`, without the overflow cutoff:
values out of range are rejected by the callers' range checks below). -/
def parseDigits (s : GoStr) : Option Nat :=
  s.foldl (fun acc c => do
    let n ← acc
    let d ← digitVal c
    pure (n * 10 + d)) (some 0)

/-- One dotted-quad octet, per Go ≥ 1.17 `parseIPv4`: nonempty, all digits,
no leading zero (unless the octet is exactly "0"), value ≤ 255.
`parseDigits` returns `some` only when every character is a digit. -/
def parseOctet (s : GoStr) : Option Nat :=
  if s.length = 0 then none
  else if 1 < s.length ∧ s.head? = some '0' then none
  else
    match parseDigits s with
    | some n => if n ≤ 255 then some n else none
    | none => none

/-- `net.ParseIP` restricted to the IPv4 family: dotted quad to its 32-bit
value.  `none` embeds Go's `nil` result (invalid IP). -/
def parseIPv4 (s : GoStr) : Option Nat :=
  match (goSplit '.' s).mapM parseOctet with
  | some [a, b, c, d] => some (((a * 256 + b) * 256 + c) * 256 + d)
  | _ => none

/-- Mask length parse for the part after `/` in a CIDR: nonempty digits,
value at most 32 (8 × the 4-byte IPv4 length). -/
def parseMaskLen (s : GoStr) : Option Nat :=
  if s.length = 0 then none
  else
    match parseDigits s with
    | some n => if n ≤ 32 then some n else none
    | none => none

/-- `net.ParseCIDR` for IPv4: returns the masked network base value and the
prefix length (what `cidr.Mask.Size()` reports as `ones`). -/
def parseCIDR (s : GoStr) : Option (Nat × Nat) :=
  match splitFirst '/' s with
  | none => none
  | some (addrStr, maskStr) =>
    match parseIPv4 addrStr, parseMaskLen maskStr with
    | some addr, some n => some ((addr >>> (32 - n)) <<< (32 - n), n)
    | _, _ => none

/-- `IPNet.Contains`: the candidate address masked to the prefix equals the
network base. -/
def cidrContains (cidr : Nat × Nat) (ip : Nat) : Bool :=
  (ip >>> (32 - cidr.2)) <<< (32 - cidr.2) = cidr.1

/-- `config.InterfaceMapping`: an interface identifier plus its ordered list
of subnet CIDR strings. -/
structure InterfaceMapping where
  Interface : GoStr
  Subnets : List GoStr
deriving DecidableEq

/-- Error outcomes of `findInterfaceForIP` (two distinct `fmt.Errorf`
messages in the source). -/
inductive ResolveErr where
  | invalidIP
  | noMapping
deriving DecidableEq

/-- Error outcomes of `getSubnetMaskForIP`. -/
inductive SubnetErr where
  | invalidIP
  | noSubnet
deriving DecidableEq

/-- Inner loop of `Manager.findInterfaceForIP` over one mapping's subnets:
skip subnets that fail `net.ParseCIDR`, return the mapping's interface on the
first containment hit. -/
def findInSubnets (ip : Nat) (iface : GoStr) : List GoStr → Option GoStr
  | [] => none
  | subnet :: rest =>
    match parseCIDR subnet with
    | none => findInSubnets ip iface rest
    | some cidr =>
      if cidrContains cidr ip then some iface else findInSubnets ip iface rest

/-- Outer loop of `Manager.findInterfaceForIP` over the configured mappings in
declaration order. -/
def findInMappings (ip : Nat) : List InterfaceMapping → Option GoStr
  | [] => none
  | m :: rest =>
    match findInSubnets ip m.Interface m.Subnets with
    | some i => some i
    | none => findInMappings ip rest

/-- `Manager.findInterfaceForIP` (manager.go, lines 816–835); identical logic
to `config.FindInterfaceForIP` (netplan.go, lines 49–68). -/
def findInterfaceForIP (mappings : List InterfaceMapping) (ipAddr : GoStr) :
    Except ResolveErr GoStr :=
  match parseIPv4 ipAddr with
  | none => .error .invalidIP
  | some ip =>
    match findInMappings ip mappings with
    | some i => .ok i
    | none => .error .noMapping

/-- Inner loop of `Manager.getSubnetMaskForIP`: same traversal as
`findInSubnets`, but returning the prefix length of the first matching CIDR. -/
def maskInSubnets (ip : Nat) : List GoStr → Option Nat
  | [] => none
  | subnet :: rest =>
    match parseCIDR subnet with
    | none => maskInSubnets ip rest
    | some cidr =>
      if cidrContains cidr ip then some cidr.2 else maskInSubnets ip rest

/-- Outer loop of `Manager.getSubnetMaskForIP`. -/
def maskInMappings (ip : Nat) : List InterfaceMapping → Option Nat
  | [] => none
  | m :: rest =>
    match maskInSubnets ip m.Subnets with
    | some n => some n
    | none => maskInMappings ip rest

/-- The literal Go string "/32". -/
def goSlash32 : GoStr := "/32".toList

/-- `Manager.getSubnetMaskForIP` (manager.go, lines 458–479).  Mirrors Go's
multiple return `(string, error)`: `("", invalid-IP error)` for a malformed
IP, `("/N", nil)` on a match, `("/32", no-subnet error)` otherwise.
`fmt.Sprintf "/%d" ones` is `'/' :: Nat.toDigits 10 ones`. -/
def getSubnetMaskForIP (mappings : List InterfaceMapping) (ipAddr : GoStr) :
    GoStr × Option SubnetErr :=
  match parseIPv4 ipAddr with
  | none => ([], some .invalidIP)
  | some ip =>
    match maskInMappings ip mappings with
    | some n => ('/' :: Nat.toDigits 10 n, none)
    | none => (goSlash32, some .noSubnet)

/-- Spec-side flattening of the resolution search (§3, §4.1 of the spec): the
(interface, prefix-length) pairs of every mapping/subnet pair whose CIDR
contains `ip`, in mapping-list order then subnet-list order.  Used to compare
the source functions against the "first match in declaration order" wording. -/
def pairsInSubnets (ip : Nat) (iface : GoStr) : List GoStr → List (GoStr × Nat)
  | [] => []
  | subnet :: rest =>
    match parseCIDR subnet with
    | none => pairsInSubnets ip iface rest
    | some cidr =>
      if cidrContains cidr ip then (iface, cidr.2) :: pairsInSubnets ip iface rest
      else pairsInSubnets ip iface rest

/-- Spec-side: all matching pairs across the configured mappings, in
declaration order. -/
def matchingPairs (ip : Nat) : List InterfaceMapping → List (GoStr × Nat)
  | [] => []
  | m :: rest => pairsInSubnets ip m.Interface m.Subnets ++ matchingPairs ip rest

/-- `parseInterfaceName` (manager.go, lines 144–153): split on "@"; exactly
two parts means VLAN format `vlan@nic`, anything else is a regular interface
returned whole. -/
def parseInterfaceName (interfaceName : GoStr) : GoStr × GoStr × Bool :=
  match goSplit '@' interfaceName with
  | [a, b] => (a, b, true)
  | _ => ([], interfaceName, false)

/-- A YAML value as seen through `map[string]interface{}` after
`yaml.Unmarshal`: scalar string / bool / integer, sequence, or mapping. -/
inductive YVal where
  | s (v : GoStr)
  | b (v : Bool)
  | i (v : Int)
  | list (vs : List YVal)
  | map (kvs : List (GoStr × YVal))

/-- `NetplanRoute` (manager.go, lines 102–111).  `Typ` stands for the source
field `Type` (a reserved word in Lean). -/
structure NetplanRoute where
  To : GoStr := []
  Via : GoStr := []
  From : GoStr := []
  Metric : Int := 0
  OnLink : Bool := false
  Typ : GoStr := []
  Scope : GoStr := []
  Table : Int := 0

/-- `NetplanNameservers` (manager.go, lines 96–99). -/
structure NetplanNameservers where
  Addresses : List GoStr := []
  Search : List GoStr := []

/-- `NetplanMatch` (manager.go, lines 114–118). -/
structure NetplanMatch where
  Name : GoStr := []
  MACAddress : GoStr := []
  Driver : GoStr := []

/-- `NetplanInterface` (manager.go, lines 59–75).  Zero values of the Go
struct are the field defaults; `Additional` is the open bag of unrecognized
fields. -/
structure NetplanInterface where
  Addresses : List GoStr := []
  DHCP4 : Bool := false
  DHCP6 : Bool := false
  Gateway4 : GoStr := []
  Gateway6 : GoStr := []
  MTU : Int := 0
  MACAddress : GoStr := []
  Critical : Bool := false
  Optional : Bool := false
  Routes : List NetplanRoute := []
  Nameservers : Option NetplanNameservers := none
  Renderer : GoStr := []
  Match : Option NetplanMatch := none
  SetName : GoStr := []
  Additional : List (GoStr × YVal) := []

/-- `NetplanVLAN` (manager.go, lines 78–93). -/
structure NetplanVLAN where
  ID : Int := 0
  Link : GoStr := []
  Optional : Bool := false
  Addresses : List GoStr := []
  DHCP4 : Bool := false
  DHCP6 : Bool := false
  Gateway4 : GoStr := []
  Gateway6 : GoStr := []
  MTU : Int := 0
  Critical : Bool := false
  Routes : List NetplanRoute := []
  Nameservers : Option NetplanNameservers := none
  Renderer : GoStr := []
  Additional : List (GoStr × YVal) := []

/-- `NetplanNetwork` (manager.go, lines 52–56); the two maps are embedded as
association lists. -/
structure NetplanNetwork where
  Version : Int := 2
  Ethernets : List (GoStr × NetplanInterface) := []
  Vlans : List (GoStr × NetplanVLAN) := []

/-- `NetplanConfiguration` (manager.go, lines 47–49). -/
structure NetplanConfiguration where
  Network : NetplanNetwork

/-- `TransactionChange` (manager.go, lines 22–28). -/
structure TransactionChange where
  Operation : GoStr
  IPAddress : GoStr
  Interface : GoStr
  Port : Int := 0
  SubnetMask : GoStr := []
deriving DecidableEq

/-- `Transaction` (manager.go, lines 31–36); `CreatedAt` carries the
`time.Time` abstractly. -/
structure Transaction where
  TransactionID : GoStr
  CreatedAt : Nat
  Status : GoStr
  Changes : List TransactionChange
deriving DecidableEq

/-- The literal Go string "add". -/
def goAdd : GoStr := "add".toList

/-- The literal Go string "remove". -/
def goRemove : GoStr := "remove".toList

/-- The literal Go string "pending". -/
def goPending : GoStr := "pending".toList

/-- The literal Go string "committed". -/
def goCommitted : GoStr := "committed".toList

/-- The literal Go string "failed". -/
def goFailed : GoStr := "failed".toList

/-- Failure outcome of `Manager.applyChange`: the only error the source can
produce there is the `default:` arm for an unknown operation string. -/
inductive ApplyErr where
  | unknownOperation (op : GoStr)
deriving DecidableEq

/-- `Manager.applyChange` (manager.go, lines 692–793): apply one staged change
to the in-memory document.  Reads of a missing map key give the zero value,
duplicate detection is `strings.HasPrefix(addr, change.IPAddress)`, removal
filters by the same prefix test, and an interface/VLAN whose address list
becomes empty is deleted from its map. -/
def applyChange (netplanConfig : NetplanConfiguration) (change : TransactionChange) :
    Except ApplyErr NetplanConfiguration :=
  let p := parseInterfaceName change.Interface
  if p.2.2 then
    let vlanName := p.1
    let nicName := p.2.1
    let vlan := (alGet netplanConfig.Network.Vlans vlanName).getD {}
    if change.Operation = goAdd then
      let fullAddr := change.IPAddress ++ change.SubnetMask
      if vlan.Addresses.any (fun addr => change.IPAddress.isPrefixOf addr) then
        .ok netplanConfig
      else
        let vlan := { vlan with Addresses := vlan.Addresses ++ [fullAddr] }
        let vlan := if vlan.Link = [] then { vlan with Link := nicName } else vlan
        .ok { netplanConfig with
              Network := { netplanConfig.Network with
                           Vlans := alSet netplanConfig.Network.Vlans vlanName vlan } }
    else if change.Operation = goRemove then
      let newAddresses := vlan.Addresses.filter (fun addr => !change.IPAddress.isPrefixOf addr)
      let vlan := { vlan with Addresses := newAddresses }
      let vlans := alSet netplanConfig.Network.Vlans vlanName vlan
      let vlans := if newAddresses.length = 0 then alDel vlans vlanName else vlans
      .ok { netplanConfig with
            Network := { netplanConfig.Network with Vlans := vlans } }
    else
      .error (.unknownOperation change.Operation)
  else
    let iface := (alGet netplanConfig.Network.Ethernets change.Interface).getD {}
    if change.Operation = goAdd then
      let fullAddr := change.IPAddress ++ change.SubnetMask
      if iface.Addresses.any (fun addr => change.IPAddress.isPrefixOf addr) then
        .ok netplanConfig
      else
        let iface := { iface with Addresses := iface.Addresses ++ [fullAddr] }
        .ok { netplanConfig with
              Network := { netplanConfig.Network with
                           Ethernets := alSet netplanConfig.Network.Ethernets change.Interface iface } }
    else if change.Operation = goRemove then
      let newAddresses := iface.Addresses.filter (fun addr => !change.IPAddress.isPrefixOf addr)
      let iface := { iface with Addresses := newAddresses }
      let ethernets := alSet netplanConfig.Network.Ethernets change.Interface iface
      let ethernets := if newAddresses.length = 0 then alDel ethernets change.Interface else ethernets
      .ok { netplanConfig with
            Network := { netplanConfig.Network with Ethernets := ethernets } }
    else
      .error (.unknownOperation change.Operation)

/-- The on-disk state of one transaction's journal file
(`<transactionDir>/transaction-<id>.json`): missing, present but unloadable
(unreadable or JSON that fails to parse), or holding a stored transaction. -/
inductive JFile where
  | absent
  | corrupt
  | stored (t : Transaction)
deriving DecidableEq

/-- Error outcomes of `Manager.loadTransaction` (manager.go, lines 659–673):
the `os.ReadFile` error or the JSON parse error. -/
inductive LoadErr where
  | readFailed
  | parseFailed
deriving DecidableEq

/-- `Manager.loadTransaction`: read and parse the journal file. -/
def loadTransaction : JFile → Except LoadErr Transaction
  | .absent => .error .readFailed
  | .corrupt => .error .parseFailed
  | .stored t => .ok t

/-- Errors of the staging operations (`AddIPAddressToTransaction`,
`RemoveIPAddressFromTransaction`, `addChangeToTransaction`). -/
inductive StageErr where
  | emptyIP
  | resolve (e : ResolveErr)
  | notPending (status : GoStr)
deriving DecidableEq

/-- `Manager.addChangeToTransaction` (manager.go, lines 628–656): load the
existing transaction, or on any load failure silently create a fresh pending
one; refuse if the status is not "pending"; append the change and save.
`now` is the `time.Now()` of the call; the pair returned is Go's
`error` result together with the journal file state after the call
(unchanged on error, overwritten by `saveTransaction` on success). -/
def addChangeToTransaction (transactionID : GoStr) (now : Nat) (file : JFile)
    (change : TransactionChange) : Except StageErr Unit × JFile :=
  let transaction :=
    match loadTransaction file with
    | .ok t => t
    | .error _ =>
      { TransactionID := transactionID, CreatedAt := now
        Status := goPending, Changes := [] }
  if transaction.Status ≠ goPending then
    (.error (.notPending transaction.Status), file)
  else
    (.ok (), .stored { transaction with Changes := transaction.Changes ++ [change] })

/-- `Manager.AddIPAddressToTransaction` (manager.go, lines 486–519): validate,
resolve the interface (returning the resolution error without staging when it
fails), resolve the subnet mask with the "/32" default on error, and append an
add-change to the journal. -/
def AddIPAddressToTransaction (mappings : List InterfaceMapping)
    (transactionID ipAddr : GoStr) (port : Int) (now : Nat) (file : JFile) :
    Except StageErr Unit × JFile :=
  if ipAddr = [] then (.error .emptyIP, file)
  else
    match findInterfaceForIP mappings ipAddr with
    | .error e => (.error (.resolve e), file)
    | .ok interfaceName =>
      let subnetMask :=
        match getSubnetMaskForIP mappings ipAddr with
        | (mask, none) => mask
        | (_, some _) => goSlash32
      addChangeToTransaction transactionID now file
        { Operation := goAdd, IPAddress := ipAddr, Interface := interfaceName
          Port := port, SubnetMask := subnetMask }

/-- `Manager.markTransactionFailed` (manager.go, lines 796–805): best-effort
flip of the stored status to "failed"; load errors are swallowed. -/
def markTransactionFailed (file : JFile) : JFile :=
  match loadTransaction file with
  | .error _ => file
  | .ok t => .stored { t with Status := goFailed }

/-- The world state visible to `Manager.CommitTransaction`: the journal file
for the id being committed, its archived copy in `committed/`, the outcome of
loading the netplan document (`loadNetplanConfig`), success oracles for
`saveNetplanConfig` and `ApplyNetplan`, the last successfully saved document,
and the in-memory tracked-address map `m.addresses`. -/
structure CommitWorld where
  txFile : JFile
  committedFile : Option Transaction
  netplanLoad : Except Unit NetplanConfiguration
  docSaveOk : Bool
  applyOk : Bool
  savedDoc : Option NetplanConfiguration
  addresses : List (GoStr × GoStr)

/-- Error outcomes of `Manager.CommitTransaction`. -/
inductive CommitErr where
  | loadFailed (e : LoadErr)
  | notPending (status : GoStr)
  | configLoadFailed
  | applyChangeFailed (e : ApplyErr)
  | saveFailed
  | activationFailed
deriving DecidableEq

/-- The `for _, change := range transaction.Changes` loop of
`CommitTransaction`: fold `applyChange` over the list, stopping at the first
failure. -/
def applyChanges (netplanConfig : NetplanConfiguration) :
    List TransactionChange → Except ApplyErr NetplanConfiguration
  | [] => .ok netplanConfig
  | change :: rest =>
    match applyChange netplanConfig change with
    | .error e => .error e
    | .ok cfg => applyChanges cfg rest

/-- The tracking-state update loop of `CommitTransaction` (lines 600–607):
"add" inserts into `m.addresses`, "remove" deletes, anything else is skipped
by the `switch`. -/
def updateTracking (addresses : List (GoStr × GoStr)) :
    List TransactionChange → List (GoStr × GoStr)
  | [] => addresses
  | change :: rest =>
    let addresses :=
      if change.Operation = goAdd then alSet addresses change.IPAddress change.Interface
      else if change.Operation = goRemove then alDel addresses change.IPAddress
      else addresses
    updateTracking addresses rest

/-- `Manager.CommitTransaction` (manager.go, lines 551–625): load the
transaction, require status "pending", load the document, apply every change
stopping at the first failure (marking the transaction failed), save the
document and run `netplan apply` (each failure marking the transaction
failed), then update tracking, persist the committed status and archive the
file.  Journal-file writes (`saveTransaction`, `os.Rename`) are modelled as
succeeding. -/
def commitTransaction (w : CommitWorld) : Except CommitErr Unit × CommitWorld :=
  match loadTransaction w.txFile with
  | .error e => (.error (.loadFailed e), w)
  | .ok transaction =>
    if transaction.Status ≠ goPending then
      (.error (.notPending transaction.Status), w)
    else
      match w.netplanLoad with
      | .error _ => (.error .configLoadFailed, w)
      | .ok netplanConfig =>
        match applyChanges netplanConfig transaction.Changes with
        | .error e =>
          (.error (.applyChangeFailed e), { w with txFile := markTransactionFailed w.txFile })
        | .ok newConfig =>
          if !w.docSaveOk then
            (.error .saveFailed, { w with txFile := markTransactionFailed w.txFile })
          else
            let w2 := { w with savedDoc := some newConfig }
            if !w2.applyOk then
              (.error .activationFailed, { w2 with txFile := markTransactionFailed w2.txFile })
            else
              let addresses := updateTracking w2.addresses transaction.Changes
              let t2 := { transaction with Status := goCommitted }
              (.ok (), { w2 with addresses := addresses
                                 txFile := .absent, committedFile := some t2 })

/-- Error outcomes of the non-transactional `AddIPAddress` /
`RemoveIPAddress` entry points. -/
inductive DirectErr where
  | emptyIP
  | resolve (e : ResolveErr)
  | vlanNotFound
  | interfaceNotFound
deriving DecidableEq

/-- `Manager.AddIPAddress` (manager.go, lines 158–250), with the document and
tracking map passed explicitly and the load/save I/O assumed to succeed:
resolve the interface (failing without side effects when no mapping matches),
resolve the mask with "/32" fallback, and fold the address into the document
exactly as `applyChange`'s add arm does, updating the tracking map. -/
def AddIPAddress (mappings : List InterfaceMapping)
    (netplanConfig : NetplanConfiguration) (addresses : List (GoStr × GoStr))
    (ipAddr : GoStr) :
    Except DirectErr (NetplanConfiguration × List (GoStr × GoStr)) :=
  if ipAddr = [] then .error .emptyIP
  else
    match findInterfaceForIP mappings ipAddr with
    | .error e => .error (.resolve e)
    | .ok interfaceName =>
      let subnetMask :=
        match getSubnetMaskForIP mappings ipAddr with
        | (mask, none) => mask
        | (_, some _) => goSlash32
      let fullAddr := ipAddr ++ subnetMask
      let p := parseInterfaceName interfaceName
      if p.2.2 then
        let vlanName := p.1
        let nicName := p.2.1
        let vlan := (alGet netplanConfig.Network.Vlans vlanName).getD {}
        if vlan.Addresses.any (fun addr => ipAddr.isPrefixOf addr) then
          .ok (netplanConfig, alSet addresses ipAddr interfaceName)
        else
          let vlan := { vlan with Addresses := vlan.Addresses ++ [fullAddr] }
          let vlan := if vlan.Link = [] then { vlan with Link := nicName } else vlan
          .ok ({ netplanConfig with
                 Network := { netplanConfig.Network with
                              Vlans := alSet netplanConfig.Network.Vlans vlanName vlan } },
               alSet addresses ipAddr interfaceName)
      else
        let iface := (alGet netplanConfig.Network.Ethernets interfaceName).getD {}
        if iface.Addresses.any (fun addr => ipAddr.isPrefixOf addr) then
          .ok (netplanConfig, alSet addresses ipAddr interfaceName)
        else
          let iface := { iface with Addresses := iface.Addresses ++ [fullAddr] }
          .ok ({ netplanConfig with
                 Network := { netplanConfig.Network with
                              Ethernets := alSet netplanConfig.Network.Ethernets interfaceName iface } },
               alSet addresses ipAddr interfaceName)

/-- `Manager.RemoveIPAddress` (manager.go, lines 255–339), with the document
and tracking map passed explicitly and load/save I/O assumed to succeed: find
the interface from tracking (falling back to `config.FindInterfaceForIP`),
filter the address list by the prefix test, prune an emptied interface/VLAN,
and drop the IP from tracking. -/
def RemoveIPAddress (mappings : List InterfaceMapping)
    (netplanConfig : NetplanConfiguration) (addresses : List (GoStr × GoStr))
    (ipAddr : GoStr) :
    Except DirectErr (NetplanConfiguration × List (GoStr × GoStr)) :=
  let ifaceRes : Except DirectErr GoStr :=
    match alGet addresses ipAddr with
    | some i => .ok i
    | none =>
      match findInterfaceForIP mappings ipAddr with
      | .ok i => .ok i
      | .error e => .error (.resolve e)
  match ifaceRes with
  | .error e => .error e
  | .ok interfaceName =>
    let p := parseInterfaceName interfaceName
    if p.2.2 then
      match alGet netplanConfig.Network.Vlans p.1 with
      | none => .error .vlanNotFound
      | some vlan =>
        let newAddresses := vlan.Addresses.filter (fun addr => !ipAddr.isPrefixOf addr)
        let vlan := { vlan with Addresses := newAddresses }
        let vlans := alSet netplanConfig.Network.Vlans p.1 vlan
        let vlans := if newAddresses.length = 0 then alDel vlans p.1 else vlans
        .ok ({ netplanConfig with
               Network := { netplanConfig.Network with Vlans := vlans } },
             alDel addresses ipAddr)
    else
      match alGet netplanConfig.Network.Ethernets interfaceName with
      | none => .error .interfaceNotFound
      | some iface =>
        let newAddresses := iface.Addresses.filter (fun addr => !ipAddr.isPrefixOf addr)
        let iface := { iface with Addresses := newAddresses }
        let ethernets := alSet netplanConfig.Network.Ethernets interfaceName iface
        let ethernets :=
          if newAddresses.length = 0 then alDel ethernets interfaceName else ethernets
        .ok ({ netplanConfig with
               Network := { netplanConfig.Network with Ethernets := ethernets } },
             alDel addresses ipAddr)

/-- YAML key "addresses". -/
def kAddresses : GoStr := "addresses".toList

/-- YAML key "dhcp4". -/
def kDhcp4 : GoStr := "dhcp4".toList

/-- YAML key "dhcp6". -/
def kDhcp6 : GoStr := "dhcp6".toList

/-- YAML key "gateway4". -/
def kGateway4 : GoStr := "gateway4".toList

/-- YAML key "gateway6". -/
def kGateway6 : GoStr := "gateway6".toList

/-- YAML key "mtu". -/
def kMtu : GoStr := "mtu".toList

/-- YAML key "macaddress". -/
def kMacaddress : GoStr := "macaddress".toList

/-- YAML key "critical". -/
def kCritical : GoStr := "critical".toList

/-- YAML key "optional". -/
def kOptional : GoStr := "optional".toList

/-- YAML key "routes". -/
def kRoutes : GoStr := "routes".toList

/-- YAML key "nameservers". -/
def kNameservers : GoStr := "nameservers".toList

/-- YAML key "renderer". -/
def kRenderer : GoStr := "renderer".toList

/-- YAML key "match". -/
def kMatch : GoStr := "match".toList

/-- YAML key "set-name". -/
def kSetName : GoStr := "set-name".toList

/-- YAML key "id". -/
def kId : GoStr := "id".toList

/-- YAML key "link". -/
def kLink : GoStr := "link".toList

/-- YAML key "to". -/
def kTo : GoStr := "to".toList

/-- YAML key "via". -/
def kVia : GoStr := "via".toList

/-- YAML key "from". -/
def kFrom : GoStr := "from".toList

/-- YAML key "metric". -/
def kMetric : GoStr := "metric".toList

/-- YAML key "on-link". -/
def kOnLink : GoStr := "on-link".toList

/-- YAML key "type". -/
def kType : GoStr := "type".toList

/-- YAML key "scope". -/
def kScope : GoStr := "scope".toList

/-- YAML key "table". -/
def kTable : GoStr := "table".toList

/-- YAML key "search". -/
def kSearch : GoStr := "search".toList

/-- YAML key "name". -/
def kName : GoStr := "name".toList

/-- YAML key "driver". -/
def kDriver : GoStr := "driver".toList

/-- The keys `NetplanInterface.UnmarshalYAML` recognizes and deletes from the
raw map (manager.go, lines 849–967). -/
def interfaceKnownKeys : List GoStr :=
  [kAddresses, kDhcp4, kDhcp6, kGateway4, kGateway6, kMtu, kMacaddress,
   kCritical, kOptional, kRoutes, kNameservers, kRenderer, kMatch, kSetName]

/-- The keys `NetplanVLAN.UnmarshalYAML` recognizes and deletes from the raw
map (manager.go, lines 1044–1155). -/
def vlanKnownKeys : List GoStr :=
  [kId, kLink, kOptional, kAddresses, kDhcp4, kDhcp6, kGateway4, kGateway6,
   kMtu, kCritical, kRoutes, kNameservers, kRenderer]

/-- Decoding of one struct field from a raw YAML mapping via the source's
`yaml.Marshal`/`yaml.Unmarshal` round trip: an absent key yields the zero
value, a key of the right shape yields its value, a key of the wrong shape is
a decode error (`none`). -/
def fieldS (kvs : List (GoStr × YVal)) (k : GoStr) : Option GoStr :=
  match alGet kvs k with
  | none => some []
  | some (.s v) => some v
  | some _ => none

/-- Integer-field analogue of `fieldS`. -/
def fieldI (kvs : List (GoStr × YVal)) (k : GoStr) : Option Int :=
  match alGet kvs k with
  | none => some 0
  | some (.i v) => some v
  | some _ => none

/-- Boolean-field analogue of `fieldS`. -/
def fieldB (kvs : List (GoStr × YVal)) (k : GoStr) : Option Bool :=
  match alGet kvs k with
  | none => some false
  | some (.b v) => some v
  | some _ => none

/-- Strict decode of a YAML sequence of strings (`[]string` via
`yaml.Unmarshal`): any non-string element fails the decode. -/
def decodeStrList : YVal → Option (List GoStr)
  | .list vs => vs.mapM (fun v => match v with | .s v => some v | _ => none)
  | _ => none

/-- The `yaml.Marshal(route)` + `yaml.Unmarshal(routeData, &r)` round trip in
`UnmarshalYAML` (manager.go, lines 920–933): decode one route element,
`none` when the element is not a mapping or a field has the wrong type. -/
def decodeRoute : YVal → Option NetplanRoute
  | .map kvs => do
    let toV ← fieldS kvs kTo
    let via ← fieldS kvs kVia
    let fro ← fieldS kvs kFrom
    let metric ← fieldI kvs kMetric
    let onLink ← fieldB kvs kOnLink
    let ty ← fieldS kvs kType
    let scope ← fieldS kvs kScope
    let table ← fieldI kvs kTable
    some { To := toV, Via := via, From := fro, Metric := metric
           OnLink := onLink, Typ := ty, Scope := scope, Table := table }
  | _ => none

/-- The nameservers round trip (manager.go, lines 935–943). -/
def decodeNameservers : YVal → Option NetplanNameservers
  | .map kvs => do
    let addrs ←
      match alGet kvs kAddresses with
      | none => some []
      | some v => decodeStrList v
    let search ←
      match alGet kvs kSearch with
      | none => some []
      | some v => decodeStrList v
    some { Addresses := addrs, Search := search }
  | _ => none

/-- The match round trip (manager.go, lines 952–960). -/
def decodeMatch : YVal → Option NetplanMatch
  | .map kvs => do
    let nm ← fieldS kvs kName
    let mac ← fieldS kvs kMacaddress
    let drv ← fieldS kvs kDriver
    some { Name := nm, MACAddress := mac, Driver := drv }
  | _ => none

/-- `NetplanInterface.UnmarshalYAML` (manager.go, lines 838–975): process each
known key (a present key of the wrong type leaves the field at its zero value;
either way the key is deleted from the raw map), then store the remaining keys
in `Additional`.  The per-key `delete(raw, k)` calls make `Additional` exactly
the restriction of `raw` to unrecognized keys. -/
def NetplanInterface.unmarshalYAML (raw : List (GoStr × YVal)) : NetplanInterface :=
  { Addresses :=
      match alGet raw kAddresses with
      | some (.list vs) => vs.filterMap (fun v => match v with | .s v => some v | _ => none)
      | _ => []
    DHCP4 := match alGet raw kDhcp4 with | some (.b v) => v | _ => false
    DHCP6 := match alGet raw kDhcp6 with | some (.b v) => v | _ => false
    Gateway4 := match alGet raw kGateway4 with | some (.s v) => v | _ => []
    Gateway6 := match alGet raw kGateway6 with | some (.s v) => v | _ => []
    MTU := match alGet raw kMtu with | some (.i v) => v | _ => 0
    MACAddress := match alGet raw kMacaddress with | some (.s v) => v | _ => []
    Critical := match alGet raw kCritical with | some (.b v) => v | _ => false
    Optional := match alGet raw kOptional with | some (.b v) => v | _ => false
    Routes :=
      match alGet raw kRoutes with
      | some (.list vs) => vs.filterMap decodeRoute
      | _ => []
    Nameservers :=
      match alGet raw kNameservers with
      | some v => decodeNameservers v
      | none => none
    Renderer := match alGet raw kRenderer with | some (.s v) => v | _ => []
    Match :=
      match alGet raw kMatch with
      | some v => decodeMatch v
      | none => none
    SetName := match alGet raw kSetName with | some (.s v) => v | _ => []
    Additional := raw.filter (fun p => !interfaceKnownKeys.contains p.1) }

/-- `result[k] = v` guarded by a non-zero-value test, the repeated pattern of
`MarshalYAML`. -/
def setIf (c : Prop) [Decidable c] (m : List (GoStr × YVal)) (k : GoStr) (v : YVal) :
    List (GoStr × YVal) :=
  if c then alSet m k v else m

/-- `result[k] = enc b` guarded by a non-nil pointer test. -/
def setOpt {β : Type} (m : List (GoStr × YVal)) (k : GoStr) (x : Option β)
    (enc : β → YVal) : List (GoStr × YVal) :=
  match x with
  | some v => alSet m k (enc v)
  | none => m

/-- `yaml.Marshal` of a `NetplanRoute` (struct tags of manager.go, lines
102–111): `to` always, the rest with `omitempty`. -/
def encodeRoute (r : NetplanRoute) : YVal :=
  .map ([(kTo, .s r.To)]
    ++ (if r.Via ≠ [] then [(kVia, .s r.Via)] else [])
    ++ (if r.From ≠ [] then [(kFrom, .s r.From)] else [])
    ++ (if r.Metric ≠ 0 then [(kMetric, .i r.Metric)] else [])
    ++ (if r.OnLink then [(kOnLink, .b r.OnLink)] else [])
    ++ (if r.Typ ≠ [] then [(kType, .s r.Typ)] else [])
    ++ (if r.Scope ≠ [] then [(kScope, .s r.Scope)] else [])
    ++ (if r.Table ≠ 0 then [(kTable, .i r.Table)] else []))

/-- `yaml.Marshal` of `NetplanNameservers` (both fields `omitempty`). -/
def encodeNameservers (ns : NetplanNameservers) : YVal :=
  .map ((if ns.Addresses ≠ [] then [(kAddresses, .list (ns.Addresses.map YVal.s))] else [])
    ++ (if ns.Search ≠ [] then [(kSearch, .list (ns.Search.map YVal.s))] else []))

/-- `yaml.Marshal` of `NetplanMatch` (all fields `omitempty`). -/
def encodeMatch (m : NetplanMatch) : YVal :=
  .map ((if m.Name ≠ [] then [(kName, .s m.Name)] else [])
    ++ (if m.MACAddress ≠ [] then [(kMacaddress, .s m.MACAddress)] else [])
    ++ (if m.Driver ≠ [] then [(kDriver, .s m.Driver)] else []))

/-- `NetplanInterface.MarshalYAML` (manager.go, lines 978–1030): start from
the `Additional` bag, then write each known field when it has a non-zero
value. -/
def NetplanInterface.marshalYAML (n : NetplanInterface) : List (GoStr × YVal) :=
  let result := n.Additional
  let result := setIf (0 < n.Addresses.length) result kAddresses (.list (n.Addresses.map YVal.s))
  let result := setIf (n.DHCP4 = true) result kDhcp4 (.b n.DHCP4)
  let result := setIf (n.DHCP6 = true) result kDhcp6 (.b n.DHCP6)
  let result := setIf (n.Gateway4 ≠ []) result kGateway4 (.s n.Gateway4)
  let result := setIf (n.Gateway6 ≠ []) result kGateway6 (.s n.Gateway6)
  let result := setIf (n.MTU ≠ 0) result kMtu (.i n.MTU)
  let result := setIf (n.MACAddress ≠ []) result kMacaddress (.s n.MACAddress)
  let result := setIf (n.Critical = true) result kCritical (.b n.Critical)
  let result := setIf (n.Optional = true) result kOptional (.b n.Optional)
  let result := setIf (0 < n.Routes.length) result kRoutes (.list (n.Routes.map encodeRoute))
  let result := setOpt result kNameservers n.Nameservers encodeNameservers
  let result := setIf (n.Renderer ≠ []) result kRenderer (.s n.Renderer)
  let result := setOpt result kMatch n.Match encodeMatch
  let result := setIf (n.SetName ≠ []) result kSetName (.s n.SetName)
  result

/-- `NetplanVLAN.UnmarshalYAML` (manager.go, lines 1033–1163). -/
def NetplanVLAN.unmarshalYAML (raw : List (GoStr × YVal)) : NetplanVLAN :=
  { ID := match alGet raw kId with | some (.i v) => v | _ => 0
    Link := match alGet raw kLink with | some (.s v) => v | _ => []
    Optional := match alGet raw kOptional with | some (.b v) => v | _ => false
    Addresses :=
      match alGet raw kAddresses with
      | some (.list vs) => vs.filterMap (fun v => match v with | .s v => some v | _ => none)
      | _ => []
    DHCP4 := match alGet raw kDhcp4 with | some (.b v) => v | _ => false
    DHCP6 := match alGet raw kDhcp6 with | some (.b v) => v | _ => false
    Gateway4 := match alGet raw kGateway4 with | some (.s v) => v | _ => []
    Gateway6 := match alGet raw kGateway6 with | some (.s v) => v | _ => []
    MTU := match alGet raw kMtu with | some (.i v) => v | _ => 0
    Critical := match alGet raw kCritical with | some (.b v) => v | _ => false
    Routes :=
      match alGet raw kRoutes with
      | some (.list vs) => vs.filterMap decodeRoute
      | _ => []
    Nameservers :=
      match alGet raw kNameservers with
      | some v => decodeNameservers v
      | none => none
    Renderer := match alGet raw kRenderer with | some (.s v) => v | _ => []
    Additional := raw.filter (fun p => !vlanKnownKeys.contains p.1) }

/-- `NetplanVLAN.MarshalYAML` (manager.go, lines 1166–1213): start from
`Additional`, always write `id` and `link`, then the optional fields. -/
def NetplanVLAN.marshalYAML (n : NetplanVLAN) : List (GoStr × YVal) :=
  let result := n.Additional
  let result := alSet result kId (.i n.ID)
  let result := alSet result kLink (.s n.Link)
  let result := setIf (n.Optional = true) result kOptional (.b n.Optional)
  let result := setIf (0 < n.Addresses.length) result kAddresses (.list (n.Addresses.map YVal.s))
  let result := setIf (n.DHCP4 = true) result kDhcp4 (.b n.DHCP4)
  let result := setIf (n.DHCP6 = true) result kDhcp6 (.b n.DHCP6)
  let result := setIf (n.Gateway4 ≠ []) result kGateway4 (.s n.Gateway4)
  let result := setIf (n.Gateway6 ≠ []) result kGateway6 (.s n.Gateway6)
  let result := setIf (n.MTU ≠ 0) result kMtu (.i n.MTU)
  let result := setIf (n.Critical = true) result kCritical (.b n.Critical)
  let result := setIf (0 < n.Routes.length) result kRoutes (.list (n.Routes.map encodeRoute))
  let result := setOpt result kNameservers n.Nameservers encodeNameservers
  let result := setIf (n.Renderer ≠ []) result kRenderer (.s n.Renderer)
  result

/-- Concrete mapping list from §8 of the spec: `eth0` serves `192.168.1.0/24`
and `10.0.0.0/8`, `eth1` serves `172.16.0.0/16`. -/
def cfgScenario : List InterfaceMapping :=
  [⟨"eth0".toList, ["192.168.1.0/24".toList, "10.0.0.0/8".toList]⟩,
   ⟨"eth1".toList, ["172.16.0.0/16".toList]⟩]

/-- A well-formed IPv4 address matched by no subnet of `cfgScenario`. -/
def ipNoMatch : GoStr := "203.0.113.1".toList

/-- A staged change whose operation string is not "add" or "remove". -/
def chBad : TransactionChange :=
  { Operation := "frobnicate".toList, IPAddress := "10.0.0.1".toList
    Interface := "eth0".toList, Port := 0, SubnetMask := "/24".toList }

/-- A valid staged add-change (spec §8 commit scenario). -/
def chAdd : TransactionChange :=
  { Operation := goAdd, IPAddress := "192.168.1.100".toList
    Interface := "eth0".toList, Port := 8080, SubnetMask := "/24".toList }

/-- A valid staged remove-change. -/
def chRem : TransactionChange :=
  { Operation := goRemove, IPAddress := "192.168.1.100".toList
    Interface := "eth0".toList, Port := 0, SubnetMask := [] }

/-- A pending transaction holding only the malformed change `chBad`. -/
def txBad : Transaction :=
  { TransactionID := "tx1".toList, CreatedAt := 0, Status := goPending, Changes := [chBad] }

/-- A committed (hence append-refusing) transaction. -/
def txDone : Transaction :=
  { TransactionID := "tx2".toList, CreatedAt := 0, Status := goCommitted, Changes := [] }

/-- The empty version-2 document `loadNetplanConfig` creates when the backing
file is absent. -/
def emptyDoc : NetplanConfiguration := { Network := { Version := 2 } }

/-- A document whose `eth0` holds the single address `10.0.0.100/24`. -/
def docB : NetplanConfiguration :=
  { Network := { Version := 2
                 Ethernets := [("eth0".toList, { Addresses := ["10.0.0.100/24".toList] })] } }

/-- The document produced by adding `192.168.1.100/24` on `eth0` to the empty
document. -/
def docAfterAdd : NetplanConfiguration :=
  { Network := { Version := 2
                 Ethernets := [("eth0".toList, { Addresses := ["192.168.1.100/24".toList] })] } }

/-- A document whose `eth0` holds two addresses in different subnets. -/
def docTwo : NetplanConfiguration :=
  { Network := { Version := 2
                 Ethernets := [("eth0".toList,
                   { Addresses := ["192.168.1.100/24".toList, "10.0.0.5/8".toList] })] } }

/-- A commit world set up so that every external effect succeeds. -/
def worldBad : CommitWorld :=
  { txFile := .stored txBad, committedFile := none, netplanLoad := .ok emptyDoc
    docSaveOk := true, applyOk := true, savedDoc := none, addresses := [] }

/-- A raw YAML mapping with one key unknown to both schemas. -/
def rawUnknown : List (GoStr × YVal) :=
  [("wakeonlan".toList, .b true), (kDhcp4, .b true)]

theorem loadTransaction_ok {f : JFile} {t : Transaction}
    (h : loadTransaction f = .ok t) : f = .stored t := by
  cases f with
  | absent => exact absurd h (by simp [loadTransaction])
  | corrupt => exact absurd h (by simp [loadTransaction])
  | stored t0 => cases h; rfl

theorem alGet_alSet_self {α : Type} (m : List (GoStr × α)) (k : GoStr) (v : α) :
    alGet (alSet m k v) k = some v := by
  induction m with
  | nil => simp [alGet, alSet]
  | cons p rest ih =>
    by_cases h : p.1 = k
    · simp [alSet, alGet, h]
    · simp [alSet, alGet, h, ih]

theorem alGet_alDel_self {α : Type} (m : List (GoStr × α)) (k : GoStr) :
    alGet (alDel m k) k = none := by
  induction m with
  | nil => rfl
  | cons p rest ih =>
    by_cases h : p.1 = k
    · simpa [alDel, alGet, h] using ih
    · simpa [alDel, alGet, h] using ih

theorem mem_alSet_of_ne {m : List (GoStr × YVal)} {k0 : GoStr} {v0 : YVal}
    {k : GoStr} {v : YVal} (h : (k, v) ∈ m) (hne : k ≠ k0) :
    (k, v) ∈ alSet m k0 v0 := by
  induction m with
  | nil => cases h
  | cons p rest ih =>
    rcases List.mem_cons.mp h with h1 | h1
    · subst h1
      simp only [alSet]
      rw [if_neg hne]
      exact List.mem_cons_self _ _
    · by_cases hp : p.1 = k0
      · simp [alSet, hp]
        exact Or.inr h1
      · simp [alSet, hp]
        exact Or.inr (ih h1)

theorem mem_setIf_of_ne {c : Prop} [Decidable c] {m : List (GoStr × YVal)}
    {k0 : GoStr} {v0 : YVal} {k : GoStr} {v : YVal}
    (h : (k, v) ∈ m) (hne : k ≠ k0) : (k, v) ∈ setIf c m k0 v0 := by
  unfold setIf
  split
  · exact mem_alSet_of_ne h hne
  · exact h

theorem mem_setOpt_of_ne {β : Type} {m : List (GoStr × YVal)} {k0 : GoStr}
    {x : Option β} {enc : β → YVal} {k : GoStr} {v : YVal}
    (h : (k, v) ∈ m) (hne : k ≠ k0) : (k, v) ∈ setOpt m k0 x enc := by
  unfold setOpt
  cases x with
  | some b => exact mem_alSet_of_ne h hne
  | none => exact h

theorem goSplit_ne_nil (sep : Char) (s : GoStr) : goSplit sep s ≠ [] := by
  cases s with
  | nil => simp [goSplit]
  | cons c cs =>
    simp only [goSplit]
    split
    · simp
    · split
      · simp
      · simp

theorem goSplit_of_not_mem {sep : Char} {s : GoStr} (h : sep ∉ s) :
    goSplit sep s = [s] := by
  induction s with
  | nil => rfl
  | cons c cs ih =>
    have hc : ¬ c = sep := fun he => h (he ▸ List.mem_cons_self c cs)
    have hcs : sep ∉ cs := fun hm => h (List.mem_cons_of_mem _ hm)
    simp [goSplit, hc, ih hcs]

theorem goSplit_append {sep : Char} {x y : GoStr} (hx : sep ∉ x) :
    goSplit sep (x ++ sep :: y) = x :: goSplit sep y := by
  induction x with
  | nil => simp [goSplit]
  | cons c cs ih =>
    have hc : ¬ c = sep := fun he => hx (he ▸ List.mem_cons_self c cs)
    have hcs : sep ∉ cs := fun hm => hx (List.mem_cons_of_mem _ hm)
    simp only [List.cons_append, goSplit, hc, if_false]
    have hih : goSplit sep (cs.append (sep :: y)) = cs :: goSplit sep y := ih hcs
    rw [hih]

theorem length_goSplit (sep : Char) (s : GoStr) :
    (goSplit sep s).length = List.count sep s + 1 := by
  induction s with
  | nil => simp [goSplit]
  | cons c cs ih =>
    by_cases hc : c = sep
    · subst hc
      simp [goSplit, ih, List.count_cons]
    · simp only [goSplit, hc, if_false]
      cases h : goSplit sep cs with
      | nil => exact absurd h (goSplit_ne_nil sep cs)
      | cons r rs =>
        rw [h] at ih
        simp only [List.length_cons] at ih ⊢
        rw [List.count_cons]
        simp [hc, ih, Ne.symm hc]

/-- C9: `parseInterfaceName` is pure and splits on "@": with exactly one
separator it returns (text before, text after, isVLAN = true); with zero
separators it returns the name unchanged as a plain interface; with two or
more separators it falls back to a plain interface named literally. -/
theorem C9_parseInterfaceName_spec (s x y : GoStr) :
    (('@' : Char) ∉ x → ('@' : Char) ∉ y → s = x ++ '@' :: y →
       parseInterfaceName s = (x, y, true)) ∧
    (('@' : Char) ∉ s → parseInterfaceName s = ([], s, false)) ∧
    (2 ≤ List.count '@' s → parseInterfaceName s = ([], s, false)) := by
  refine ⟨fun hx hy hs => ?_, fun h => ?_, fun h => ?_⟩
  · subst hs
    rw [parseInterfaceName, goSplit_append hx, goSplit_of_not_mem hy]
  · rw [parseInterfaceName, goSplit_of_not_mem h]
  · have hlen : 3 ≤ (goSplit '@' s).length := by
      rw [length_goSplit]
      omega
    rw [parseInterfaceName]
    rcases hsp : goSplit '@' s with _ | ⟨a, _ | ⟨b, _ | ⟨c, rest⟩⟩⟩ <;>
      rw [hsp] at hlen <;> simp at hlen ⊢

/-- Witness for C9 at the spec's own examples: `"vlan100@eth0"` parses as
VLAN `vlan100` on parent `eth0`; `"eth0"` and `"a@b@c"` are plain. -/
theorem C9_parseInterfaceName_witness :
    parseInterfaceName "vlan100@eth0".toList = ("vlan100".toList, "eth0".toList, true) ∧
    parseInterfaceName "eth0".toList = ([], "eth0".toList, false) ∧
    parseInterfaceName "a@b@c".toList = ([], "a@b@c".toList, false) :=
  ⟨(C9_parseInterfaceName_spec "vlan100@eth0".toList "vlan100".toList "eth0".toList).1
      (by decide) (by decide) (by decide),
   (C9_parseInterfaceName_spec "eth0".toList [] []).2.1 (by decide),
   (C9_parseInterfaceName_spec "a@b@c".toList [] []).2.2 (by decide)⟩

/-- C4: appending two changes to a transaction id with no existing journal
file yields a pending transaction holding exactly those two changes in append
order; appending to a stored transaction whose status is not "pending" fails
with the not-pending error and leaves the file (hence the change list and the
status) unchanged. -/
theorem C4_journal_append (id : GoStr) (now1 now2 : Nat) (c1 c2 : TransactionChange)
    (t : Transaction) (hstatus : t.Status ≠ goPending) :
    addChangeToTransaction id now1 .absent c1
      = (.ok (), .stored { TransactionID := id, CreatedAt := now1
                           Status := goPending, Changes := [c1] }) ∧
    addChangeToTransaction id now2
        (.stored { TransactionID := id, CreatedAt := now1
                   Status := goPending, Changes := [c1] }) c2
      = (.ok (), .stored { TransactionID := id, CreatedAt := now1
                           Status := goPending, Changes := [c1, c2] }) ∧
    addChangeToTransaction id now1 (.stored t) c1
      = (.error (.notPending t.Status), .stored t) := by
  refine ⟨rfl, rfl, ?_⟩
  simp [addChangeToTransaction, loadTransaction, hstatus]

/-- Witness for C4 at a concrete committed transaction. -/
theorem C4_journal_append_witness :
    addChangeToTransaction "tx2".toList 0 (.stored txDone) chAdd
      = (.error (.notPending txDone.Status), .stored txDone) :=
  (C4_journal_append "tx2".toList 0 0 chAdd chRem txDone (by decide)).2.2

/-- C10 (implicit behavior): when the journal file for an id exists but fails
to load, `addChangeToTransaction` swallows the load failure, builds a brand
new pending transaction containing only the new change, and its save
overwrites the file, discarding whatever was recorded there. -/
theorem C10_corrupt_journal_overwritten (id : GoStr) (now : Nat) (c : TransactionChange) :
    loadTransaction .corrupt = .error .parseFailed ∧
    addChangeToTransaction id now .corrupt c
      = (.ok (), .stored { TransactionID := id, CreatedAt := now
                           Status := goPending, Changes := [c] }) :=
  ⟨rfl, rfl⟩

theorem findInSubnets_eq_head (ip : Nat) (iface : GoStr) (subs : List GoStr) :
    findInSubnets ip iface subs = ((pairsInSubnets ip iface subs).head?).map Prod.fst := by
  induction subs with
  | nil => rfl
  | cons s rest ih =>
    simp only [findInSubnets, pairsInSubnets]
    cases hc : parseCIDR s with
    | none => exact ih
    | some cidr =>
      by_cases h : cidrContains cidr ip
      · simp [h]
      · simp [h, ih]

theorem maskInSubnets_eq_head (ip : Nat) (iface : GoStr) (subs : List GoStr) :
    maskInSubnets ip subs = ((pairsInSubnets ip iface subs).head?).map Prod.snd := by
  induction subs with
  | nil => rfl
  | cons s rest ih =>
    simp only [maskInSubnets, pairsInSubnets]
    cases hc : parseCIDR s with
    | none => exact ih
    | some cidr =>
      by_cases h : cidrContains cidr ip
      · simp [h]
      · simp [h, ih]

theorem findInMappings_eq_head (ip : Nat) (ms : List InterfaceMapping) :
    findInMappings ip ms = ((matchingPairs ip ms).head?).map Prod.fst := by
  induction ms with
  | nil => rfl
  | cons m rest ih =>
    simp only [findInMappings, matchingPairs]
    rw [findInSubnets_eq_head ip m.Interface m.Subnets]
    cases hp : pairsInSubnets ip m.Interface m.Subnets with
    | nil => simpa using ih
    | cons q qs => simp

theorem maskInMappings_eq_head (ip : Nat) (ms : List InterfaceMapping) :
    maskInMappings ip ms = ((matchingPairs ip ms).head?).map Prod.snd := by
  induction ms with
  | nil => rfl
  | cons m rest ih =>
    simp only [maskInMappings, matchingPairs]
    rw [maskInSubnets_eq_head ip m.Interface m.Subnets]
    cases hp : pairsInSubnets ip m.Interface m.Subnets with
    | nil => simpa using ih
    | cons q qs => simp

/-- C3: the resolver returns the interface of the first mapping/subnet pair
(mapping-list order, then subnet-list order) whose CIDR contains the IP and a
no-mapping error otherwise; `getSubnetMaskForIP` returns "/N" for the prefix
length N of that same first matching CIDR, `("/32", no-subnet error)` for an
unmatched IP, and both functions report a distinct invalid-IP error on a
malformed IP string. -/
theorem C3_resolver_first_match (mappings : List InterfaceMapping) (s : GoStr) :
    (parseIPv4 s = none →
       findInterfaceForIP mappings s = .error .invalidIP ∧
       getSubnetMaskForIP mappings s = ([], some .invalidIP) ∧
       ResolveErr.invalidIP ≠ ResolveErr.noMapping) ∧
    (∀ ip i n, parseIPv4 s = some ip →
       (matchingPairs ip mappings).head? = some (i, n) →
       findInterfaceForIP mappings s = .ok i ∧
       getSubnetMaskForIP mappings s = ('/' :: Nat.toDigits 10 n, none)) ∧
    (∀ ip, parseIPv4 s = some ip →
       (matchingPairs ip mappings).head? = none →
       findInterfaceForIP mappings s = .error .noMapping ∧
       getSubnetMaskForIP mappings s = (goSlash32, some .noSubnet)) := by
  refine ⟨fun hnone => ?_, fun ip i n hip hhead => ?_, fun ip hip hhead => ?_⟩
  · simp [findInterfaceForIP, getSubnetMaskForIP, hnone]
  · constructor
    · simp [findInterfaceForIP, hip, findInMappings_eq_head, hhead]
    · simp [getSubnetMaskForIP, hip, maskInMappings_eq_head, hhead]
  · constructor
    · simp [findInterfaceForIP, hip, findInMappings_eq_head, hhead]
    · simp [getSubnetMaskForIP, hip, maskInMappings_eq_head, hhead]

/-- Witness for C3 on the spec §8 scenario config: `10.5.5.5` resolves to
`eth0` with mask "/8" (second subnet of the first mapping), `203.0.113.1`
yields the no-mapping error and the "/32" default, and the malformed
`10.05.5.5` (leading zero) yields the invalid-IP error. -/
theorem C3_resolver_first_match_witness :
    (findInterfaceForIP cfgScenario "10.5.5.5".toList = .ok "eth0".toList ∧
     getSubnetMaskForIP cfgScenario "10.5.5.5".toList = ("/8".toList, none)) ∧
    (findInterfaceForIP cfgScenario ipNoMatch = .error .noMapping ∧
     getSubnetMaskForIP cfgScenario ipNoMatch = (goSlash32, some .noSubnet)) ∧
    (findInterfaceForIP cfgScenario "10.05.5.5".toList = .error .invalidIP ∧
     getSubnetMaskForIP cfgScenario "10.05.5.5".toList = ([], some .invalidIP)) :=
  ⟨(C3_resolver_first_match cfgScenario "10.5.5.5".toList).2.1
      168101125 "eth0".toList 8 rfl rfl,
   (C3_resolver_first_match cfgScenario ipNoMatch).2.2 3405803777 rfl rfl,
   ((C3_resolver_first_match cfgScenario "10.05.5.5".toList).1 rfl).1,
   ((C3_resolver_first_match cfgScenario "10.05.5.5".toList).1 rfl).2.1⟩

/-- Counterexample for C2: for the well-formed IP `203.0.113.1`, contained in
no subnet of `cfgScenario`, `AddIPAddressToTransaction` returns the
resolution error with the journal file untouched — no add-change with a "/32"
mask (or any change at all) is staged, contrary to the claim. -/
theorem C2_stageAdd_counterexample :
    ipNoMatch ≠ [] ∧
    parseIPv4 ipNoMatch = some 3405803777 ∧
    maskInMappings 3405803777 cfgScenario = none ∧
    AddIPAddressToTransaction cfgScenario "tx1".toList ipNoMatch 8080 0 .absent
      = (.error (.resolve .noMapping), .absent) :=
  ⟨by decide, rfl, rfl, rfl⟩

/-- C2 as amended: when interface resolution fails for a staged add, the
error is returned and *nothing* is appended to the journal (the change is
lost); the "/32" degraded fallback concerns only the subnet-mask lookup,
which can never fail once interface resolution has succeeded — on success
the staged mask is the exact "/N" of the first matching CIDR. -/
theorem C2_stageAdd_resolution_failure (mappings : List InterfaceMapping)
    (transactionID ipAddr : GoStr) (port : Int) (now : Nat) (file : JFile) :
    (∀ e, ipAddr ≠ [] → findInterfaceForIP mappings ipAddr = .error e →
       AddIPAddressToTransaction mappings transactionID ipAddr port now file
         = (.error (.resolve e), file)) ∧
    (∀ i, findInterfaceForIP mappings ipAddr = .ok i →
       ∃ n, getSubnetMaskForIP mappings ipAddr = ('/' :: Nat.toDigits 10 n, none) ∧
         AddIPAddressToTransaction mappings transactionID ipAddr port now file
           = addChangeToTransaction transactionID now file
               { Operation := goAdd, IPAddress := ipAddr, Interface := i
                 Port := port, SubnetMask := '/' :: Nat.toDigits 10 n }) := by
  constructor
  · intro e hne herr
    simp [AddIPAddressToTransaction, hne, herr]
  · intro i hok
    unfold findInterfaceForIP at hok
    cases hip : parseIPv4 ipAddr with
    | none => rw [hip] at hok; exact absurd hok (by simp)
    | some ip =>
      rw [hip] at hok
      cases hfm : findInMappings ip mappings with
      | none => simp [hfm] at hok
      | some i0 =>
        simp only [hfm] at hok
        have hi : i0 = i := by simpa using hok
        rw [findInMappings_eq_head] at hfm
        cases hhead : (matchingPairs ip mappings).head? with
        | none => rw [hhead] at hfm; exact absurd hfm (by simp)
        | some q =>
          rw [hhead] at hfm
          have hq1 : q.1 = i := by
            rw [← hi]
            have h2 : some q.1 = some i0 := by simpa using hfm
            exact Option.some.inj h2
          have hne : ipAddr ≠ [] := by
            intro h0
            rw [h0] at hip
            have hnil : parseIPv4 ([] : GoStr) = none := rfl
            rw [hnil] at hip
            cases hip
          have hmask : getSubnetMaskForIP mappings ipAddr
              = ('/' :: Nat.toDigits 10 q.2, none) := by
            simp [getSubnetMaskForIP, hip, maskInMappings_eq_head, hhead]
          have hfind : findInterfaceForIP mappings ipAddr = .ok i := by
            simp [findInterfaceForIP, hip, findInMappings_eq_head, hhead, hq1]
          refine ⟨q.2, hmask, ?_⟩
          simp [AddIPAddressToTransaction, hne, hfind, hmask]

/-- Witness for C2's amended theorem: the unmatched `203.0.113.1` is rejected
without staging; the matched `10.5.5.5` stages an add-change carrying the
exact mask "/8" of its first matching CIDR. -/
theorem C2_stageAdd_resolution_failure_witness :
    AddIPAddressToTransaction cfgScenario "tx1".toList ipNoMatch 8080 0 .absent
      = (.error (.resolve .noMapping), .absent) ∧
    (∃ n, getSubnetMaskForIP cfgScenario "10.5.5.5".toList
        = ('/' :: Nat.toDigits 10 n, none) ∧
      AddIPAddressToTransaction cfgScenario "tx1".toList "10.5.5.5".toList 8080 0 .absent
        = addChangeToTransaction "tx1".toList 0 .absent
            { Operation := goAdd, IPAddress := "10.5.5.5".toList
              Interface := "eth0".toList, Port := 8080
              SubnetMask := '/' :: Nat.toDigits 10 n }) :=
  ⟨(C2_stageAdd_resolution_failure cfgScenario "tx1".toList ipNoMatch 8080 0 .absent).1
      .noMapping (by decide) rfl,
   (C2_stageAdd_resolution_failure cfgScenario "tx1".toList "10.5.5.5".toList 8080 0 .absent).2
      "eth0".toList rfl⟩

theorem goRemove_ne_goAdd : goRemove ≠ goAdd := by decide

theorem applyChange_add_eth (cfg : NetplanConfiguration) (c : TransactionChange)
    (hvlan : (parseInterfaceName c.Interface).2.2 = false)
    (hop : c.Operation = goAdd) :
    applyChange cfg c =
      (let iface := (alGet cfg.Network.Ethernets c.Interface).getD {}
       if iface.Addresses.any (fun addr => c.IPAddress.isPrefixOf addr) then
         .ok cfg
       else
         .ok { cfg with Network := { cfg.Network with
                 Ethernets := alSet cfg.Network.Ethernets c.Interface
                   { iface with Addresses := iface.Addresses ++ [c.IPAddress ++ c.SubnetMask] } } }) := by
  simp only [applyChange, hvlan, hop, Bool.false_eq_true, if_false, if_true]

theorem applyChange_remove_eth (cfg : NetplanConfiguration) (c : TransactionChange)
    (hvlan : (parseInterfaceName c.Interface).2.2 = false)
    (hop : c.Operation = goRemove) :
    applyChange cfg c =
      (let iface := (alGet cfg.Network.Ethernets c.Interface).getD {}
       let newAddresses := iface.Addresses.filter (fun addr => !c.IPAddress.isPrefixOf addr)
       let ethernets := alSet cfg.Network.Ethernets c.Interface
         { iface with Addresses := newAddresses }
       .ok { cfg with Network := { cfg.Network with
               Ethernets := if newAddresses.length = 0 then alDel ethernets c.Interface
                            else ethernets } }) := by
  simp only [applyChange, hvlan, hop, Bool.false_eq_true, if_false, if_true,
    goRemove_ne_goAdd]

theorem applyChange_add_vlan (cfg : NetplanConfiguration) (c : TransactionChange)
    (hvlan : (parseInterfaceName c.Interface).2.2 = true)
    (hop : c.Operation = goAdd) :
    applyChange cfg c =
      (let vlan := (alGet cfg.Network.Vlans (parseInterfaceName c.Interface).1).getD {}
       if vlan.Addresses.any (fun addr => c.IPAddress.isPrefixOf addr) then
         .ok cfg
       else
         let vlan2 := { vlan with Addresses := vlan.Addresses ++ [c.IPAddress ++ c.SubnetMask] }
         let vlan3 := if vlan2.Link = [] then
             { vlan2 with Link := (parseInterfaceName c.Interface).2.1 } else vlan2
         .ok { cfg with Network := { cfg.Network with
                 Vlans := alSet cfg.Network.Vlans (parseInterfaceName c.Interface).1 vlan3 } }) := by
  simp only [applyChange, hvlan, hop, if_true]

theorem applyChange_remove_vlan (cfg : NetplanConfiguration) (c : TransactionChange)
    (hvlan : (parseInterfaceName c.Interface).2.2 = true)
    (hop : c.Operation = goRemove) :
    applyChange cfg c =
      (let vlan := (alGet cfg.Network.Vlans (parseInterfaceName c.Interface).1).getD {}
       let newAddresses := vlan.Addresses.filter (fun addr => !c.IPAddress.isPrefixOf addr)
       let vlans := alSet cfg.Network.Vlans (parseInterfaceName c.Interface).1
         { vlan with Addresses := newAddresses }
       .ok { cfg with Network := { cfg.Network with
               Vlans := if newAddresses.length = 0 then
                   alDel vlans (parseInterfaceName c.Interface).1
                 else vlans } }) := by
  simp only [applyChange, hvlan, hop, if_true, goRemove_ne_goAdd, if_false]

theorem isPrefixOf_append_right {a b m : GoStr} (h : a.isPrefixOf b = true) :
    a.isPrefixOf (b ++ m) = true := by
  rw [List.isPrefixOf_iff_prefix] at h ⊢
  exact h.trans (List.prefix_append b m)

theorem isPrefixOf_append_self (a m : GoStr) : a.isPrefixOf (a ++ m) = true := by
  rw [List.isPrefixOf_iff_prefix]
  exact List.prefix_append a m

/-- C5: duplicate detection and removal compare addresses by an IP
*string-prefix* test, not CIDR-normalized equality: whenever the string `a` is
a proper string prefix of `b` (e.g. `10.0.0.1` and `10.0.0.100`) and the
interface holds `b` with its mask, adding `a` is treated as a duplicate no-op
(nothing is inserted), and removing `a` — through the commit path
(`applyChange`) or the direct path (`RemoveIPAddress`) — also deletes `b`'s
entry. -/
theorem C5_prefix_based_matching (cfg : NetplanConfiguration)
    (mappings : List InterfaceMapping) (tracked : List (GoStr × GoStr))
    (ifaceName a b mask addMask : GoStr) (port : Int) (et : NetplanInterface)
    (hvlan : (parseInterfaceName ifaceName).2.2 = false)
    (_hne : a ≠ b) (hpre : a.isPrefixOf b = true)
    (het : alGet cfg.Network.Ethernets ifaceName = some et)
    (hmem : (b ++ mask) ∈ et.Addresses) :
    applyChange cfg { Operation := goAdd, IPAddress := a, Interface := ifaceName
                      Port := port, SubnetMask := addMask } = .ok cfg ∧
    (∃ cfg2, applyChange cfg { Operation := goRemove, IPAddress := a, Interface := ifaceName
                               Port := port, SubnetMask := [] } = .ok cfg2 ∧
       ∀ et2, alGet cfg2.Network.Ethernets ifaceName = some et2 →
         (b ++ mask) ∉ et2.Addresses) ∧
    (alGet tracked a = some ifaceName →
       ∃ cfg2 tr2, RemoveIPAddress mappings cfg tracked a = .ok (cfg2, tr2) ∧
         ∀ et2, alGet cfg2.Network.Ethernets ifaceName = some et2 →
           (b ++ mask) ∉ et2.Addresses) := by
  have hpre2 : a.isPrefixOf (b ++ mask) = true := isPrefixOf_append_right hpre
  have hany : et.Addresses.any (fun addr => a.isPrefixOf addr) = true :=
    List.any_eq_true.2 ⟨b ++ mask, hmem, hpre2⟩
  have hnotmem : ∀ l : List GoStr,
      (b ++ mask) ∉ l.filter (fun addr => !a.isPrefixOf addr) := by
    intro l hmem2
    have h2 := (List.mem_filter.1 hmem2).2
    rw [hpre2] at h2
    cases h2
  refine ⟨?_, ?_, ?_⟩
  · rw [applyChange_add_eth cfg _ hvlan rfl]
    simp [het, hany]
  · rw [applyChange_remove_eth cfg _ hvlan rfl]
    simp only [het, Option.getD_some]
    by_cases hlen : (et.Addresses.filter (fun addr => !a.isPrefixOf addr)).length = 0
    · refine ⟨_, by rw [if_pos hlen], ?_⟩
      intro et2 hget
      rw [alGet_alDel_self] at hget
      cases hget
    · refine ⟨_, by rw [if_neg hlen], ?_⟩
      intro et2 hget
      rw [alGet_alSet_self] at hget
      cases hget
      exact hnotmem et.Addresses
  · intro htr
    unfold RemoveIPAddress
    simp only [htr, hvlan, Bool.false_eq_true, if_false, het]
    by_cases hlen : (et.Addresses.filter (fun addr => !a.isPrefixOf addr)).length = 0
    · refine ⟨_, _, by rw [if_pos hlen], ?_⟩
      intro et2 hget
      rw [alGet_alDel_self] at hget
      cases hget
    · refine ⟨_, _, by rw [if_neg hlen], ?_⟩
      intro et2 hget
      rw [alGet_alSet_self] at hget
      cases hget
      exact hnotmem et.Addresses

/-- Witness for C5 at the spec's own example: with `10.0.0.100/24` on `eth0`,
adding `10.0.0.1` is a no-op and removing `10.0.0.1` deletes the
`10.0.0.100/24` entry. -/
theorem C5_prefix_based_matching_witness :
    applyChange docB { Operation := goAdd, IPAddress := "10.0.0.1".toList
                       Interface := "eth0".toList, Port := 0
                       SubnetMask := "/32".toList } = .ok docB ∧
    (∃ cfg2, applyChange docB { Operation := goRemove, IPAddress := "10.0.0.1".toList
                                Interface := "eth0".toList, Port := 0
                                SubnetMask := [] } = .ok cfg2 ∧
       ∀ et2, alGet cfg2.Network.Ethernets "eth0".toList = some et2 →
         ("10.0.0.100".toList ++ "/24".toList) ∉ et2.Addresses) :=
  have h := C5_prefix_based_matching docB cfgScenario
    [("10.0.0.1".toList, "eth0".toList)]
    "eth0".toList "10.0.0.1".toList "10.0.0.100".toList "/24".toList "/32".toList 0
    { Addresses := ["10.0.0.100/24".toList] }
    (by decide) (by decide) (by decide) rfl (by decide)
  ⟨h.1, h.2.1⟩

theorem any_isPrefixOf_append_self (ip mask : GoStr) (l : List GoStr) :
    (l ++ [ip ++ mask]).any (fun addr => ip.isPrefixOf addr) = true :=
  List.any_eq_true.2 ⟨ip ++ mask, List.mem_append_right l (List.mem_singleton_self _),
    isPrefixOf_append_self ip mask⟩

/-- C6: the add operation is idempotent per IP on the document: once an add of
an IP has gone through (via the commit path `applyChange` or via
`AddIPAddress`), a second add of the same IP at the same interface — with any
mask — finds the previously added address by the duplicate prefix check and
leaves the document unchanged. -/
theorem C6_addAddress_idempotent (cfg : NetplanConfiguration) :
    (∀ c c2 cfg2, c.Operation = goAdd → c2.Operation = goAdd →
       c2.IPAddress = c.IPAddress → c2.Interface = c.Interface →
       applyChange cfg c = .ok cfg2 → applyChange cfg2 c2 = .ok cfg2) ∧
    (∀ mappings addrs ip cfgA trA,
       AddIPAddress mappings cfg addrs ip = .ok (cfgA, trA) →
       ∃ trB, AddIPAddress mappings cfgA trA ip = .ok (cfgA, trB)) := by
  constructor
  · intro c c2 cfg2 hop hop2 hip hif h1
    by_cases hv : (parseInterfaceName c.Interface).2.2 = true
    · have hv2 : (parseInterfaceName c2.Interface).2.2 = true := by rw [hif]; exact hv
      rw [applyChange_add_vlan cfg c hv hop] at h1
      rw [applyChange_add_vlan cfg2 c2 hv2 hop2]
      simp only [hif, hip] at *
      by_cases hdup : ((alGet cfg.Network.Vlans (parseInterfaceName c.Interface).1).getD
          {}).Addresses.any (fun addr => c.IPAddress.isPrefixOf addr) = true
      · rw [if_pos hdup] at h1
        have hcfg : cfg = cfg2 := by simpa using h1
        subst hcfg
        rw [if_pos hdup]
      · rw [if_neg hdup] at h1
        injection h1 with hcfg
        subst hcfg
        rw [alGet_alSet_self]
        simp only [Option.getD_some]
        rw [if_pos]
        split
        · exact any_isPrefixOf_append_self _ _ _
        · exact any_isPrefixOf_append_self _ _ _
    · have hvF : (parseInterfaceName c.Interface).2.2 = false := by
        revert hv; cases (parseInterfaceName c.Interface).2.2 <;> simp
      have hv2 : (parseInterfaceName c2.Interface).2.2 = false := by rw [hif]; exact hvF
      rw [applyChange_add_eth cfg c hvF hop] at h1
      rw [applyChange_add_eth cfg2 c2 hv2 hop2]
      simp only [hif, hip] at *
      by_cases hdup : ((alGet cfg.Network.Ethernets c.Interface).getD
          {}).Addresses.any (fun addr => c.IPAddress.isPrefixOf addr) = true
      · rw [if_pos hdup] at h1
        have hcfg : cfg = cfg2 := by simpa using h1
        subst hcfg
        rw [if_pos hdup]
      · rw [if_neg hdup] at h1
        injection h1 with hcfg
        subst hcfg
        rw [alGet_alSet_self]
        simp only [Option.getD_some]
        rw [if_pos (any_isPrefixOf_append_self _ _ _)]
  · intro mappings addrs ip cfgA trA h
    unfold AddIPAddress at h ⊢
    by_cases hip0 : ip = []
    · rw [if_pos hip0] at h
      simp at h
    · rw [if_neg hip0] at h ⊢
      cases hf : findInterfaceForIP mappings ip with
      | error e =>
        rw [hf] at h
        simp at h
      | ok ifname =>
        rw [hf] at h
        simp only [] at h ⊢
        by_cases hv : (parseInterfaceName ifname).2.2 = true
        · rw [if_pos hv] at h ⊢
          by_cases hdup : ((alGet cfg.Network.Vlans (parseInterfaceName ifname).1).getD
              {}).Addresses.any (fun addr => ip.isPrefixOf addr) = true
          · rw [if_pos hdup] at h
            simp only [Except.ok.injEq, Prod.mk.injEq] at h
            obtain ⟨hcfg, htr⟩ := h
            subst hcfg
            subst htr
            rw [if_pos hdup]
            exact ⟨_, rfl⟩
          · rw [if_neg hdup] at h
            simp only [Except.ok.injEq, Prod.mk.injEq] at h
            obtain ⟨hcfg, htr⟩ := h
            subst hcfg
            subst htr
            rw [alGet_alSet_self]
            simp only [Option.getD_some]
            rw [if_pos]
            · exact ⟨_, rfl⟩
            · split
              · exact any_isPrefixOf_append_self _ _ _
              · exact any_isPrefixOf_append_self _ _ _
        · rw [if_neg hv] at h ⊢
          by_cases hdup : ((alGet cfg.Network.Ethernets ifname).getD
              {}).Addresses.any (fun addr => ip.isPrefixOf addr) = true
          · rw [if_pos hdup] at h
            simp only [Except.ok.injEq, Prod.mk.injEq] at h
            obtain ⟨hcfg, htr⟩ := h
            subst hcfg
            subst htr
            rw [if_pos hdup]
            exact ⟨_, rfl⟩
          · rw [if_neg hdup] at h
            simp only [Except.ok.injEq, Prod.mk.injEq] at h
            obtain ⟨hcfg, htr⟩ := h
            subst hcfg
            subst htr
            rw [alGet_alSet_self]
            simp only [Option.getD_some]
            rw [if_pos (any_isPrefixOf_append_self _ _ _)]
            exact ⟨_, rfl⟩

/-- Witness for C6: adding `192.168.1.100` to the empty document creates the
entry, and a second add (even with a different mask) leaves the document
unchanged; same for `AddIPAddress` under `cfgScenario`. -/
theorem C6_addAddress_idempotent_witness :
    (∃ cfg2, applyChange emptyDoc chAdd = .ok cfg2 ∧
       applyChange cfg2 { chAdd with SubnetMask := "/16".toList } = .ok cfg2) ∧
    (∃ cfgA trA trB,
       AddIPAddress cfgScenario emptyDoc [] "192.168.1.100".toList = .ok (cfgA, trA) ∧
       AddIPAddress cfgScenario cfgA trA "192.168.1.100".toList = .ok (cfgA, trB)) := by
  constructor
  · refine ⟨docAfterAdd, rfl, ?_⟩
    exact (C6_addAddress_idempotent emptyDoc).1 chAdd
      { chAdd with SubnetMask := "/16".toList } docAfterAdd rfl rfl rfl rfl rfl
  · have h := (C6_addAddress_idempotent emptyDoc).2 cfgScenario [] "192.168.1.100".toList
      docAfterAdd [("192.168.1.100".toList, "eth0".toList)] rfl
    obtain ⟨trB, hB⟩ := h
    exact ⟨_, _, trB, rfl, hB⟩

/-- C8: when a remove filters an interface's (or VLAN's) address list down to
empty, that interface's (or VLAN's) key is deleted from the document's
ethernets (or vlans) mapping entirely; with a non-empty remainder the entry is
kept with the filtered list.  Holds for the commit path (`applyChange`) and
the direct path (`RemoveIPAddress`). -/
theorem C8_remove_prunes_empty (cfg : NetplanConfiguration) (c : TransactionChange)
    (mappings : List InterfaceMapping) (tracked : List (GoStr × GoStr))
    (hop : c.Operation = goRemove) :
    (∀ et, (parseInterfaceName c.Interface).2.2 = false →
       alGet cfg.Network.Ethernets c.Interface = some et →
       ∃ cfg2, applyChange cfg c = .ok cfg2 ∧
         (et.Addresses.filter (fun addr => !c.IPAddress.isPrefixOf addr) = [] →
            alGet cfg2.Network.Ethernets c.Interface = none) ∧
         (et.Addresses.filter (fun addr => !c.IPAddress.isPrefixOf addr) ≠ [] →
            alGet cfg2.Network.Ethernets c.Interface
              = some { et with Addresses :=
                  et.Addresses.filter (fun addr => !c.IPAddress.isPrefixOf addr) })) ∧
    (∀ vl, (parseInterfaceName c.Interface).2.2 = true →
       alGet cfg.Network.Vlans (parseInterfaceName c.Interface).1 = some vl →
       ∃ cfg2, applyChange cfg c = .ok cfg2 ∧
         (vl.Addresses.filter (fun addr => !c.IPAddress.isPrefixOf addr) = [] →
            alGet cfg2.Network.Vlans (parseInterfaceName c.Interface).1 = none) ∧
         (vl.Addresses.filter (fun addr => !c.IPAddress.isPrefixOf addr) ≠ [] →
            alGet cfg2.Network.Vlans (parseInterfaceName c.Interface).1
              = some { vl with Addresses :=
                  vl.Addresses.filter (fun addr => !c.IPAddress.isPrefixOf addr) })) ∧
    (∀ ipAddr ifaceName et, alGet tracked ipAddr = some ifaceName →
       (parseInterfaceName ifaceName).2.2 = false →
       alGet cfg.Network.Ethernets ifaceName = some et →
       ∃ cfg2 tr2, RemoveIPAddress mappings cfg tracked ipAddr = .ok (cfg2, tr2) ∧
         (et.Addresses.filter (fun addr => !ipAddr.isPrefixOf addr) = [] →
            alGet cfg2.Network.Ethernets ifaceName = none) ∧
         (et.Addresses.filter (fun addr => !ipAddr.isPrefixOf addr) ≠ [] →
            alGet cfg2.Network.Ethernets ifaceName
              = some { et with Addresses :=
                  et.Addresses.filter (fun addr => !ipAddr.isPrefixOf addr) })) := by
  refine ⟨?_, ?_, ?_⟩
  · intro et hvF het
    rw [applyChange_remove_eth cfg c hvF hop]
    simp only [het, Option.getD_some]
    by_cases hemp : et.Addresses.filter (fun addr => !c.IPAddress.isPrefixOf addr) = []
    · have hlen : (et.Addresses.filter (fun addr => !c.IPAddress.isPrefixOf addr)).length = 0 := by
        rw [hemp]; rfl
      refine ⟨_, by rw [if_pos hlen], fun _ => alGet_alDel_self _ _, fun hne2 => absurd hemp hne2⟩
    · have hlen : ¬ (et.Addresses.filter (fun addr => !c.IPAddress.isPrefixOf addr)).length = 0 := by
        simpa [List.length_eq_zero] using hemp
      refine ⟨_, by rw [if_neg hlen], fun heq => absurd heq hemp, fun _ => alGet_alSet_self _ _ _⟩
  · intro vl hvT hvl
    rw [applyChange_remove_vlan cfg c hvT hop]
    simp only [hvl, Option.getD_some]
    by_cases hemp : vl.Addresses.filter (fun addr => !c.IPAddress.isPrefixOf addr) = []
    · have hlen : (vl.Addresses.filter (fun addr => !c.IPAddress.isPrefixOf addr)).length = 0 := by
        rw [hemp]; rfl
      refine ⟨_, by rw [if_pos hlen], fun _ => alGet_alDel_self _ _, fun hne2 => absurd hemp hne2⟩
    · have hlen : ¬ (vl.Addresses.filter (fun addr => !c.IPAddress.isPrefixOf addr)).length = 0 := by
        simpa [List.length_eq_zero] using hemp
      refine ⟨_, by rw [if_neg hlen], fun heq => absurd heq hemp, fun _ => alGet_alSet_self _ _ _⟩
  · intro ipAddr ifaceName et htr hvF het
    unfold RemoveIPAddress
    simp only [htr, hvF, Bool.false_eq_true, if_false, het]
    by_cases hemp : et.Addresses.filter (fun addr => !ipAddr.isPrefixOf addr) = []
    · have hlen : (et.Addresses.filter (fun addr => !ipAddr.isPrefixOf addr)).length = 0 := by
        rw [hemp]; rfl
      refine ⟨_, _, by rw [if_pos hlen], fun _ => alGet_alDel_self _ _, fun hne2 => absurd hemp hne2⟩
    · have hlen : ¬ (et.Addresses.filter (fun addr => !ipAddr.isPrefixOf addr)).length = 0 := by
        simpa [List.length_eq_zero] using hemp
      refine ⟨_, _, by rw [if_neg hlen], fun heq => absurd heq hemp, fun _ => alGet_alSet_self _ _ _⟩

/-- Witness for C8: removing `192.168.1.100` from a document where it is
`eth0`'s only address deletes the `eth0` key; removing it where `eth0` also
holds `10.0.0.5/8` keeps `eth0` with the one remaining address. -/
theorem C8_remove_prunes_empty_witness :
    (∃ cfg2, applyChange docAfterAdd chRem = .ok cfg2 ∧
       alGet cfg2.Network.Ethernets "eth0".toList = none) ∧
    (∃ cfg2, applyChange docTwo chRem = .ok cfg2 ∧
       alGet cfg2.Network.Ethernets "eth0".toList
         = some { Addresses := ["10.0.0.5/8".toList] }) := by
  constructor
  · obtain ⟨cfg2, h1, h2, h3⟩ :=
      (C8_remove_prunes_empty docAfterAdd chRem cfgScenario [] rfl).1
        { Addresses := ["192.168.1.100/24".toList] } (by decide) rfl
    exact ⟨cfg2, h1, h2 (by decide)⟩
  · obtain ⟨cfg2, h1, h2, h3⟩ :=
      (C8_remove_prunes_empty docTwo chRem cfgScenario [] rfl).1
        { Addresses := ["192.168.1.100/24".toList, "10.0.0.5/8".toList] } (by decide) rfl
    exact ⟨cfg2, h1, (h3 (by decide)).trans rfl⟩

/-- C7: round-trip preservation of unknown fields — any key of a raw
interface or VLAN YAML section not in the known schema survives
unmarshal-then-marshal with its original value: unmarshalling stores it in the
`Additional` bag and marshalling re-emits it (known-field writes touch only
known keys). -/
theorem C7_roundtrip_unknown_fields (raw : List (GoStr × YVal)) (k : GoStr) (v : YVal)
    (hint : k ∉ interfaceKnownKeys) (hvlk : k ∉ vlanKnownKeys) (hkv : (k, v) ∈ raw) :
    (k, v) ∈ (NetplanInterface.unmarshalYAML raw).marshalYAML ∧
    (k, v) ∈ (NetplanVLAN.unmarshalYAML raw).marshalYAML := by
  have hint' := hint
  simp only [interfaceKnownKeys, List.mem_cons, List.not_mem_nil, or_false, not_or] at hint'
  obtain ⟨hka, hk4, hk6, hg4, hg6, hmt, hmc, hcr, hoP, hrt, hns, hrd, hmh, hsn⟩ := hint'
  have hvlk' := hvlk
  simp only [vlanKnownKeys, List.mem_cons, List.not_mem_nil, or_false, not_or] at hvlk'
  obtain ⟨hid, hlk, _, _, _, _, _, _, _, _, _, _, _⟩ := hvlk'
  constructor
  · have hadd : (k, v) ∈ (NetplanInterface.unmarshalYAML raw).Additional := by
      refine List.mem_filter.2 ⟨hkv, ?_⟩
      simp [hint]
    simp only [NetplanInterface.marshalYAML]
    refine mem_setIf_of_ne ?_ hsn
    refine mem_setOpt_of_ne ?_ hmh
    refine mem_setIf_of_ne ?_ hrd
    refine mem_setOpt_of_ne ?_ hns
    refine mem_setIf_of_ne ?_ hrt
    refine mem_setIf_of_ne ?_ hoP
    refine mem_setIf_of_ne ?_ hcr
    refine mem_setIf_of_ne ?_ hmc
    refine mem_setIf_of_ne ?_ hmt
    refine mem_setIf_of_ne ?_ hg6
    refine mem_setIf_of_ne ?_ hg4
    refine mem_setIf_of_ne ?_ hk6
    refine mem_setIf_of_ne ?_ hk4
    refine mem_setIf_of_ne ?_ hka
    exact hadd
  · have hadd : (k, v) ∈ (NetplanVLAN.unmarshalYAML raw).Additional := by
      refine List.mem_filter.2 ⟨hkv, ?_⟩
      simp [hvlk]
    simp only [NetplanVLAN.marshalYAML]
    refine mem_setIf_of_ne ?_ hrd
    refine mem_setOpt_of_ne ?_ hns
    refine mem_setIf_of_ne ?_ hrt
    refine mem_setIf_of_ne ?_ hcr
    refine mem_setIf_of_ne ?_ hmt
    refine mem_setIf_of_ne ?_ hg6
    refine mem_setIf_of_ne ?_ hg4
    refine mem_setIf_of_ne ?_ hk6
    refine mem_setIf_of_ne ?_ hk4
    refine mem_setIf_of_ne ?_ hka
    refine mem_setIf_of_ne ?_ hoP
    refine mem_alSet_of_ne ?_ hlk
    refine mem_alSet_of_ne ?_ hid
    exact hadd

/-- Witness for C7: the unrecognized key `wakeonlan` with value `true`
survives the round trip of both section types. -/
theorem C7_roundtrip_unknown_fields_witness :
    ("wakeonlan".toList, YVal.b true) ∈
      (NetplanInterface.unmarshalYAML rawUnknown).marshalYAML ∧
    ("wakeonlan".toList, YVal.b true) ∈
      (NetplanVLAN.unmarshalYAML rawUnknown).marshalYAML :=
  C7_roundtrip_unknown_fields rawUnknown "wakeonlan".toList (.b true)
    (by decide) (by decide) (List.mem_cons_self _ _)

theorem applyChanges_append_error {doc doc2 : NetplanConfiguration}
    {pre : List TransactionChange} {c : TransactionChange}
    {post : List TransactionChange} {e : ApplyErr}
    (hpre : applyChanges doc pre = .ok doc2) (hc : applyChange doc2 c = .error e) :
    applyChanges doc (pre ++ c :: post) = .error e := by
  induction pre generalizing doc with
  | nil =>
    simp only [applyChanges] at hpre
    injection hpre with hpre
    subst hpre
    simp only [List.nil_append, applyChanges, hc]
  | cons c0 rest ih =>
    simp only [applyChanges, List.cons_append] at hpre ⊢
    cases h0 : applyChange doc c0 with
    | error e0 =>
      rw [h0] at hpre
      cases hpre
    | ok docm =>
      rw [h0] at hpre
      simp only [] at hpre ⊢
      exact ih hpre

/-- C1: for a transaction whose journal file loads with status "pending":
if any change fails to apply during commit, the commit stops at the first
failing change — the outcome is the error of that change, the persisted
status flips to "failed", the tracked-address map (and everything else in the
world but the journal file) is untouched, and the changes after the failing
one are irrelevant; if the document save or the activation fails, the status
likewise becomes "failed", the error propagates (with the document already on
disk in the activation-only case), and the map is untouched; the map is
updated (to the add/remove fold of the change list) exactly when apply, save
and activation have all succeeded. -/
theorem C1_commit_error_paths (w : CommitWorld) (t : Transaction)
    (doc : NetplanConfiguration)
    (hload : loadTransaction w.txFile = .ok t)
    (hpending : t.Status = goPending)
    (hdoc : w.netplanLoad = .ok doc) :
    (∀ pre c post doc2 e, t.Changes = pre ++ c :: post →
       applyChanges doc pre = .ok doc2 → applyChange doc2 c = .error e →
       commitTransaction w
         = (.error (.applyChangeFailed e),
            { w with txFile := .stored { t with Status := goFailed } })) ∧
    (∀ doc2, applyChanges doc t.Changes = .ok doc2 → w.docSaveOk = false →
       commitTransaction w
         = (.error .saveFailed,
            { w with txFile := .stored { t with Status := goFailed } })) ∧
    (∀ doc2, applyChanges doc t.Changes = .ok doc2 → w.docSaveOk = true →
       w.applyOk = false →
       commitTransaction w
         = (.error .activationFailed,
            { w with savedDoc := some doc2
                     txFile := .stored { t with Status := goFailed } })) ∧
    (∀ e, (commitTransaction w).1 = .error e →
       (commitTransaction w).2.addresses = w.addresses) ∧
    ((commitTransaction w).1 = .ok () →
       ∃ doc2, applyChanges doc t.Changes = .ok doc2 ∧ w.docSaveOk = true ∧
         w.applyOk = true ∧
         (commitTransaction w).2.addresses = updateTracking w.addresses t.Changes) := by
  have hfile : w.txFile = .stored t := loadTransaction_ok hload
  have hmark : markTransactionFailed w.txFile = .stored { t with Status := goFailed } := by
    rw [hfile]; rfl
  refine ⟨?_, ?_, ?_, ?_, ?_⟩
  · intro pre c post doc2 e hch hpre hc
    have happ : applyChanges doc t.Changes = .error e := by
      rw [hch]; exact applyChanges_append_error hpre hc
    simp [commitTransaction, hload, hpending, hdoc, happ, hmark]
  · intro doc2 happ hsaveF
    simp [commitTransaction, hload, hpending, hdoc, happ, hsaveF, hmark]
  · intro doc2 happ hsaveT happlyF
    simp [commitTransaction, hload, hpending, hdoc, happ, hsaveT, happlyF, hmark]
  · intro e herr
    cases happ : applyChanges doc t.Changes with
    | error e0 => simp [commitTransaction, hload, hpending, hdoc, happ, hmark]
    | ok newCfg =>
      cases hsave : w.docSaveOk with
      | false => simp [commitTransaction, hload, hpending, hdoc, happ, hsave, hmark]
      | true =>
        cases happly2 : w.applyOk with
        | false => simp [commitTransaction, hload, hpending, hdoc, happ, hsave, happly2, hmark]
        | true =>
          have hok : (commitTransaction w).1 = .ok () := by
            simp [commitTransaction, hload, hpending, hdoc, happ, hsave, happly2]
          rw [hok] at herr
          cases herr
  · intro hok
    cases happ : applyChanges doc t.Changes with
    | error e0 =>
      rw [show (commitTransaction w).1 = .error (.applyChangeFailed e0) by
        simp [commitTransaction, hload, hpending, hdoc, happ, hmark]] at hok
      cases hok
    | ok newCfg =>
      cases hsave : w.docSaveOk with
      | false =>
        rw [show (commitTransaction w).1 = .error .saveFailed by
          simp [commitTransaction, hload, hpending, hdoc, happ, hsave, hmark]] at hok
        cases hok
      | true =>
        cases happly2 : w.applyOk with
        | false =>
          rw [show (commitTransaction w).1 = .error .activationFailed by
            simp [commitTransaction, hload, hpending, hdoc, happ, hsave, happly2, hmark]] at hok
          cases hok
        | true =>
          refine ⟨newCfg, rfl, rfl, rfl, ?_⟩
          simp [commitTransaction, hload, hpending, hdoc, happ, hsave, happly2]

/-- Witness for C1: a pending transaction whose single change carries the
unknown operation "frobnicate" makes commit fail with that change's error,
flip the persisted status to "failed", and leave the (empty) tracked map
untouched. -/
theorem C1_commit_error_paths_witness :
    commitTransaction worldBad
      = (.error (.applyChangeFailed (.unknownOperation "frobnicate".toList)),
         { worldBad with txFile := .stored { txBad with Status := goFailed } }) :=
  (C1_commit_error_paths worldBad txBad emptyDoc rfl rfl rfl).1
    [] chBad [] emptyDoc (.unknownOperation "frobnicate".toList) rfl rfl rfl
